import Mathlib

/-!
Shallow embedding of the CTRV Extended Kalman Filter loop of
`src/Extended-Kalman-Filter-CTRV2.ipynb` (the `for filterstep in range(m)` cell),
over exact real arithmetic.  The per-step inputs are the elapsed interval `dt`,
the measured yaw rate `yawrate[filterstep]` (called `om` below), the GPS
availability flag `GPS[filterstep]` and the measurement column
`measurements[:,filterstep]` (called `z`).  Python's float `%` operator, which
returns a representative in `[0, b)` for a positive divisor `b`, is modelled by
`pymod`.
-/

namespace KalmanCTRV

open Real Matrix

noncomputable section

/-- Python's `a % b` on floats: `a - b * floor (a / b)`. -/
def pymod (a b : ℝ) : ℝ := a - b * ⌊a / b⌋

/-- Heading normalization as written in the source:
`(angle + np.pi) % (2.0*np.pi) - np.pi`. -/
def wrapAngle (a : ℝ) : ℝ := pymod (a + π) (2 * π) - π

/-- State vectors are 5-vectors `(x, y, ψ, v, ψ̇)`, indexed as in the notebook. -/
abbrev StateV := Fin 5 → ℝ

/-- State projection of one filter step, from the source: branch on
`np.abs(yawrate[filterstep]) < 0.0001` (the measured yaw rate `om`), then either
the straight-driving update (which forces `x[4] = 0.0000001`) or the closed-form
CTRV arc update with the heading wrap. -/
def predictState (x : StateV) (dt om : ℝ) : StateV :=
  if |om| < 0.0001 then
    ![x 0 + x 3 * dt * Real.cos (x 2),
      x 1 + x 3 * dt * Real.sin (x 2),
      x 2,
      x 3,
      0.0000001]
  else
    ![x 0 + (x 3 / x 4) * (Real.sin (x 4 * dt + x 2) - Real.sin (x 2)),
      x 1 + (x 3 / x 4) * (-Real.cos (x 4 * dt + x 2) + Real.cos (x 2)),
      wrapAngle (x 2 + x 4 * dt),
      x 3,
      x 4]

/-- Jacobian `JA` of the dynamic matrix exactly as assembled in the source from
`a13 .. a25`; the argument `x` is whatever state vector the entries are read
from at that point of the loop. -/
def jacobianA (x : StateV) (dt : ℝ) : Matrix (Fin 5) (Fin 5) ℝ :=
  let a13 := (x 3 / x 4) * (Real.cos (x 4 * dt + x 2) - Real.cos (x 2))
  let a14 := (1 / x 4) * (Real.sin (x 4 * dt + x 2) - Real.sin (x 2))
  let a15 := (dt * x 3 / x 4) * Real.cos (x 4 * dt + x 2)
      - (x 3 / (x 4) ^ 2) * (Real.sin (x 4 * dt + x 2) - Real.sin (x 2))
  let a23 := (x 3 / x 4) * (Real.sin (x 4 * dt + x 2) - Real.sin (x 2))
  let a24 := (1 / x 4) * (-Real.cos (x 4 * dt + x 2) + Real.cos (x 2))
  let a25 := (dt * x 3 / x 4) * Real.sin (x 4 * dt + x 2)
      - (x 3 / (x 4) ^ 2) * (-Real.cos (x 4 * dt + x 2) + Real.cos (x 2))
  !![1, 0, a13, a14, a15;
     0, 1, a23, a24, a25;
     0, 0, 1,   0,   dt;
     0, 0, 0,   1,   0;
     0, 0, 0,   0,   1]

/-- The `JA` a step actually uses: in the source the state is overwritten in
place before `a13 .. a25` are computed, so the Jacobian is read off the
post-update (predicted) state. -/
def stepJA (x : StateV) (dt om : ℝ) : Matrix (Fin 5) (Fin 5) ℝ :=
  jacobianA (predictState x dt om) dt

/-- Covariance prediction of one step: `P = JA*P*JA.T + Q`. -/
def predictCov (Q : Matrix (Fin 5) (Fin 5) ℝ) (x : StateV)
    (P : Matrix (Fin 5) (Fin 5) ℝ) (dt om : ℝ) : Matrix (Fin 5) (Fin 5) ℝ :=
  stepJA x dt om * P * (stepJA x dt om)ᵀ + Q

/-- Measurement Jacobian `JH`: the position-selector matrix when a GPS fix is
available this step, the all-zero matrix otherwise. -/
def JHmat (gps : Bool) : Matrix (Fin 2) (Fin 5) ℝ :=
  if gps then !![1, 0, 0, 0, 0; 0, 1, 0, 0, 0] else 0

/-- Measurement function `hx`: the first two state components. -/
def hmeas (x : StateV) : Fin 2 → ℝ := ![x 0, x 1]

/-- Innovation covariance `S = JH*P*JH.T + R` for a given propagated
covariance. -/
def innovS (R : Matrix (Fin 2) (Fin 2) ℝ) (P : Matrix (Fin 5) (Fin 5) ℝ)
    (gps : Bool) : Matrix (Fin 2) (Fin 2) ℝ :=
  JHmat gps * P * (JHmat gps)ᵀ + R

/-- The innovation covariance a full step forms, with `P` already propagated
through the predict half. -/
def stepS (Q : Matrix (Fin 5) (Fin 5) ℝ) (R : Matrix (Fin 2) (Fin 2) ℝ)
    (x : StateV) (P : Matrix (Fin 5) (Fin 5) ℝ) (dt om : ℝ) (gps : Bool) :
    Matrix (Fin 2) (Fin 2) ℝ :=
  innovS R (predictCov Q x P dt om) gps

/-- Kalman gain of a step: `K = (P*JH.T) * np.linalg.inv(S)`; matrix inversion
is Mathlib's `⁻¹` (which agrees with `np.linalg.inv` whenever `S` is
invertible). -/
def stepK (Q : Matrix (Fin 5) (Fin 5) ℝ) (R : Matrix (Fin 2) (Fin 2) ℝ)
    (x : StateV) (P : Matrix (Fin 5) (Fin 5) ℝ) (dt om : ℝ) (gps : Bool) :
    Matrix (Fin 5) (Fin 2) ℝ :=
  predictCov Q x P dt om * (JHmat gps)ᵀ * (stepS Q R x P dt om gps)⁻¹

/-- Residual `y = Z - hx`, formed from the externally supplied measurement
column `z` and the predicted state. -/
def stepResidual (x : StateV) (dt om : ℝ) (z : Fin 2 → ℝ) : Fin 2 → ℝ :=
  z - hmeas (predictState x dt om)

/-- Result of one filter step: posterior state, posterior covariance, gain. -/
structure StepOut where
  x : StateV
  P : Matrix (Fin 5) (Fin 5) ℝ
  K : Matrix (Fin 5) (Fin 2) ℝ

/-- One full iteration of the `filterstep` loop: state projection, Jacobian of
the post-update state, covariance prediction, measurement Jacobian from the GPS
flag, innovation covariance, gain, residual against the supplied measurement
column, state correction `x + K*y` and covariance correction `(I - K*JH)*P`. -/
def ekfStep (Q : Matrix (Fin 5) (Fin 5) ℝ) (R : Matrix (Fin 2) (Fin 2) ℝ)
    (x : StateV) (P : Matrix (Fin 5) (Fin 5) ℝ) (dt om : ℝ) (gps : Bool)
    (z : Fin 2 → ℝ) : StepOut :=
  let x1 := predictState x dt om
  let P1 := predictCov Q x P dt om
  let K := stepK Q R x P dt om gps
  let y := stepResidual x dt om z
  ⟨x1 + K.mulVec y, (1 - K * JHmat gps) * P1, K⟩

/-- Per-step input record: interval, measured yaw rate, GPS flag, measurement
column. -/
structure StepIn where
  dt : ℝ
  om : ℝ
  gps : Bool
  z : Fin 2 → ℝ

/-- Folding the filter step over a list of per-step inputs. -/
def runEKF (Q : Matrix (Fin 5) (Fin 5) ℝ) (R : Matrix (Fin 2) (Fin 2) ℝ)
    (x : StateV) (P : Matrix (Fin 5) (Fin 5) ℝ) :
    List StepIn → StateV × Matrix (Fin 5) (Fin 5) ℝ
  | [] => (x, P)
  | s :: rest =>
      let o := ekfStep Q R x P s.dt s.om s.gps s.z
      runEKF Q R o.x o.P rest

/-- Sample interval of the notebook: `dt = 1.0/50.0`. -/
def dtnb : ℝ := 1 / 50

/-- Process noise covariance of the notebook:
`Q = np.diag([sGPS**2, sGPS**2, sCourse**2, sVelocity**2, sYaw**2])` with
`sGPS = 0.5*8.8*dt**2`, `sCourse = 0.1*dt`, `sVelocity = 8.8*dt`,
`sYaw = 1.0*dt`. -/
def Qnb : Matrix (Fin 5) (Fin 5) ℝ :=
  Matrix.diagonal
    ![(0.5 * 8.8 * dtnb ^ 2) ^ 2, (0.5 * 8.8 * dtnb ^ 2) ^ 2,
      (0.1 * dtnb) ^ 2, (8.8 * dtnb) ^ 2, (1.0 * dtnb) ^ 2]

/-- Measurement noise covariance of the notebook:
`R = np.matrix([[varGPS**2, 0.0],[0.0, varGPS**2]])` with `varGPS = 6.0`. -/
def Rnb : Matrix (Fin 2) (Fin 2) ℝ :=
  !![6.0 ^ 2, 0; 0, 6.0 ^ 2]

/-- Initial covariance of the notebook: `P = np.diag([1000.0]*5)`. -/
def Pinit : Matrix (Fin 5) (Fin 5) ℝ :=
  Matrix.diagonal ![1000, 1000, 1000, 1000, 1000]

/-- Symmetric matrix with non-negative diagonal (but indefinite) used to test
the covariance invariant. -/
def P0cex : Matrix (Fin 5) (Fin 5) ℝ :=
  !![1, 0, 2, 0, 0;
     0, 0, 0, 0, 0;
     2, 0, 1, 0, 0;
     0, 0, 0, 0, 0;
     0, 0, 0, 0, 0]

/-- State used to test the covariance invariant. -/
def s0cex : StateV := ![0, 0, -π, 25 * π, 50 * π]

/-- Straight-driving regime written from the spec's words: position advances
linearly along the current heading, heading and speed unchanged, yaw rate
forced to `1e-7`. -/
def specStraight (x : StateV) (dt : ℝ) : StateV :=
  ![x 0 + x 3 * dt * Real.cos (x 2),
    x 1 + x 3 * dt * Real.sin (x 2),
    x 2,
    x 3,
    0.0000001]

/-- Turning regime written from the spec's words: the closed-form CTRV arc
equations with `ψ' = ((ψ + ψ̇·dt + π) mod 2π) − π`, `v' = v`, `ψ̇' = ψ̇`. -/
def specTurn (x : StateV) (dt : ℝ) : StateV :=
  ![x 0 + (x 3 / x 4) * (Real.sin (x 4 * dt + x 2) - Real.sin (x 2)),
    x 1 + (x 3 / x 4) * (-Real.cos (x 4 * dt + x 2) + Real.cos (x 2)),
    pymod (x 2 + x 4 * dt + π) (2 * π) - π,
    x 3,
    x 4]

/-- Jacobian layout written from the spec's words:
`[[1,0,a13,a14,a15],[0,1,a23,a24,a25],[0,0,1,0,dt],[0,0,0,1,0],[0,0,0,0,1]]`
with the listed analytic partials, read at the state vector `x` it is given. -/
def specJA (x : StateV) (dt : ℝ) : Matrix (Fin 5) (Fin 5) ℝ :=
  !![1, 0, (x 3 / x 4) * (Real.cos (x 4 * dt + x 2) - Real.cos (x 2)),
           (1 / x 4) * (Real.sin (x 4 * dt + x 2) - Real.sin (x 2)),
           (dt * x 3 / x 4) * Real.cos (x 4 * dt + x 2)
             - (x 3 / (x 4) ^ 2) * (Real.sin (x 4 * dt + x 2) - Real.sin (x 2));
     0, 1, (x 3 / x 4) * (Real.sin (x 4 * dt + x 2) - Real.sin (x 2)),
           (1 / x 4) * (-Real.cos (x 4 * dt + x 2) + Real.cos (x 2)),
           (dt * x 3 / x 4) * Real.sin (x 4 * dt + x 2)
             - (x 3 / (x 4) ^ 2) * (-Real.cos (x 4 * dt + x 2) + Real.cos (x 2));
     0, 0, 1, 0, dt;
     0, 0, 0, 1, 0;
     0, 0, 0, 0, 1]

/-! ## Basic facts about the embedding -/

lemma JHmat_false : JHmat false = 0 := rfl

lemma stepK_false (Q : Matrix (Fin 5) (Fin 5) ℝ) (R : Matrix (Fin 2) (Fin 2) ℝ)
    (x : StateV) (P : Matrix (Fin 5) (Fin 5) ℝ) (dt om : ℝ) :
    stepK Q R x P dt om false = 0 := by
  simp [stepK, JHmat_false]

lemma ekfStep_false_x (Q : Matrix (Fin 5) (Fin 5) ℝ) (R : Matrix (Fin 2) (Fin 2) ℝ)
    (x : StateV) (P : Matrix (Fin 5) (Fin 5) ℝ) (dt om : ℝ) (z : Fin 2 → ℝ) :
    (ekfStep Q R x P dt om false z).x = predictState x dt om := by
  simp [ekfStep, stepK_false]

lemma ekfStep_false_P (Q : Matrix (Fin 5) (Fin 5) ℝ) (R : Matrix (Fin 2) (Fin 2) ℝ)
    (x : StateV) (P : Matrix (Fin 5) (Fin 5) ℝ) (dt om : ℝ) (z : Fin 2 → ℝ) :
    (ekfStep Q R x P dt om false z).P = predictCov Q x P dt om := by
  simp [ekfStep, stepK_false]

lemma pymod_nonneg (a : ℝ) {b : ℝ} (hb : 0 < b) : 0 ≤ pymod a b := by
  have hrw : pymod a b = b * Int.fract (a / b) := by
    unfold pymod Int.fract
    field_simp
  rw [hrw]
  exact mul_nonneg hb.le (Int.fract_nonneg _)

lemma pymod_lt (a : ℝ) {b : ℝ} (hb : 0 < b) : pymod a b < b := by
  have hrw : pymod a b = b * Int.fract (a / b) := by
    unfold pymod Int.fract
    field_simp
  rw [hrw]
  calc b * Int.fract (a / b) < b * 1 :=
        (mul_lt_mul_left hb).2 (Int.fract_lt_one _)
    _ = b := mul_one b

lemma wrapAngle_mem_Ico (a : ℝ) : wrapAngle a ∈ Set.Ico (-π) π := by
  have h2 : (0 : ℝ) < 2 * π := by positivity
  constructor
  · have := pymod_nonneg (a + π) h2
    unfold wrapAngle
    linarith
  · have := pymod_lt (a + π) h2
    unfold wrapAngle
    linarith

/-! ## Claims C1, C4, C6: the two regimes and the regime selector -/

/-- C1 (amended): on every step whose measured yaw-rate input `om` satisfies
`|om| ≥ ε = 1e-4`, the predict step applied to state `(x, y, ψ, v, ψ̇)`
produces exactly the closed-form CTRV arc equations of the claim (which divide
by the state's yaw-rate component `ψ̇`). -/
theorem C1_theorem (x : StateV) (dt om : ℝ) (h : 0.0001 ≤ |om|) :
    predictState x dt om = specTurn x dt := by
  unfold predictState specTurn wrapAngle
  rw [if_neg (not_lt.2 h)]

/-- C1 witness: concrete instantiation of `C1_theorem` at `om = 1`. -/
theorem C1_witness :
    (0.0001 : ℝ) ≤ |(1 : ℝ)| ∧
      predictState ![0, 0, 0, 0, 0] 1 1 = specTurn ![0, 0, 0, 0, 0] 1 :=
  ⟨by norm_num, C1_theorem ![0, 0, 0, 0, 0] 1 1 (by norm_num)⟩

/-- C1 counterexample: a state whose own yaw-rate component has
`|ψ̇| = 1 ≥ ε`, fed to a step whose measured yaw rate is `0`, takes the
straight branch and does not produce the turning-regime equations. -/
theorem C1_counterexample :
    (0.0001 : ℝ) ≤ |(![0, 0, 0, 1, 1] : StateV) 4| ∧
      predictState ![0, 0, 0, 1, 1] (1 / 50) 0 ≠ specTurn ![0, 0, 0, 1, 1] (1 / 50) := by
  constructor
  · norm_num
  · intro h
    have h0 := congrFun h 0
    have hlt : Real.sin (1 / 50) < 1 / 50 := Real.sin_lt (by norm_num)
    simp [predictState, specTurn, if_pos] at h0
    norm_num at h0
    linarith

/-- C4 (amended): on every step whose measured yaw-rate input `om` satisfies
`|om| < ε = 1e-4`, the predict step advances position linearly along the
heading, leaves heading and speed unchanged, and sets the yaw-rate component
to exactly `1e-7`. -/
theorem C4_theorem (x : StateV) (dt om : ℝ) (h : |om| < 0.0001) :
    predictState x dt om = specStraight x dt := by
  unfold predictState specStraight
  rw [if_pos h]

/-- C4 witness: concrete instantiation of `C4_theorem` at `om = 0`. -/
theorem C4_witness :
    |(0 : ℝ)| < 0.0001 ∧
      predictState ![0, 0, 0, 0, 0] 1 0 = specStraight ![0, 0, 0, 0, 0] 1 :=
  ⟨by norm_num, C4_theorem ![0, 0, 0, 0, 0] 1 0 (by norm_num)⟩

/-- C4 counterexample: a state whose own yaw-rate component is `1e-5 < ε`,
fed to a step whose measured yaw rate is `1`, takes the turning branch and
keeps its yaw rate `1e-5` instead of being set to `1e-7`. -/
theorem C4_counterexample :
    |(![0, 0, 0, 0, 0.00001] : StateV) 4| < 0.0001 ∧
      (predictState ![0, 0, 0, 0, 0.00001] (1 / 50) 1) 4 = 0.00001 ∧
      (0.00001 : ℝ) ≠ 0.0000001 := by
  refine ⟨by norm_num [abs_of_pos], ?_, by norm_num⟩
  norm_num [predictState]

/-- C6 (amended): the straight-versus-turning regime is selected by comparing
the magnitude of the step's measured yaw-rate input against `ε = 1e-4`; the
predict step is a function of the current state, `dt` and that per-step
measured yaw rate. -/
theorem C6_theorem (x : StateV) (dt om : ℝ) :
    predictState x dt om =
      if |om| < 0.0001 then specStraight x dt else specTurn x dt := by
  unfold predictState specStraight specTurn wrapAngle
  split_ifs <;> rfl

/-- C6 counterexample: the same state and the same `dt` produce different
predicted states for different measured yaw rates, so the predict step is not
a function of the current state and `dt` alone, and the regime is not decided
by the state vector's own yaw-rate component. -/
theorem C6_counterexample :
    predictState ![0, 0, 0, 1, 1] (1 / 50) 0 ≠
      predictState ![0, 0, 0, 1, 1] (1 / 50) 1 := by
  intro h
  have h0 := congrFun h 0
  have hlt : Real.sin (1 / 50) < 1 / 50 := Real.sin_lt (by norm_num)
  simp [predictState] at h0
  norm_num at h0
  linarith

/-! ## Claim C2: the state-transition Jacobian -/

/-- C2 (amended): the 5×5 Jacobian `JA` used to propagate `P` has the claimed
layout with the listed analytic partials, but those partials are evaluated at
the post-update state — the state the motion equations have just produced,
since the source overwrites `x` in place before computing `a13 .. a25` — in
both branches (the straight branch having first clamped the yaw-rate component
to `1e-7`). -/
theorem C2_theorem (x : StateV) (dt om : ℝ) :
    stepJA x dt om = specJA (predictState x dt om) dt := rfl

lemma wrapAngle_pi : wrapAngle π = -π := by
  unfold wrapAngle pymod
  have h2 : (2 : ℝ) * π ≠ 0 := by positivity
  rw [show π + π = 2 * π by ring, div_self h2]
  simp

lemma predictState_c2ce :
    predictState ![0, 0, 0, 1, 50 * π] (1 / 50) 1 =
      ![0, 1 / (25 * π), -π, 1, 50 * π] := by
  have hne : ¬ |(1 : ℝ)| < 0.0001 := by norm_num
  funext i
  rw [predictState, if_neg hne]
  fin_cases i
  · show (0 : ℝ) + 1 / (50 * π) * (Real.sin (50 * π * (1 / 50) + 0) - Real.sin 0) = 0
    rw [show 50 * π * (1 / 50) + 0 = π by ring]
    simp
  · show (0 : ℝ) + 1 / (50 * π) * (-Real.cos (50 * π * (1 / 50) + 0) + Real.cos 0) =
      1 / (25 * π)
    rw [show 50 * π * (1 / 50) + 0 = π by ring]
    simp [Real.cos_pi]
    ring
  · show wrapAngle ((0 : ℝ) + 50 * π * (1 / 50)) = -π
    rw [show (0 : ℝ) + 50 * π * (1 / 50) = π by ring, wrapAngle_pi]
  · rfl
  · rfl

/-- C2 counterexample: at the pre-update state `(0, 0, 0, 1, 50π)` with
`dt = 1/50` and measured yaw rate `1`, the Jacobian the step actually computes
has entry `a13 = 2/(50π)` whereas the claimed pre-update evaluation gives
`a13 = −2/(50π)`; the two differ. -/
theorem C2_counterexample :
    stepJA ![0, 0, 0, 1, 50 * π] (1 / 50) 1 0 2 ≠
      specJA ![0, 0, 0, 1, 50 * π] (1 / 50) 0 2 := by
  have hcode : stepJA ![0, 0, 0, 1, 50 * π] (1 / 50) 1 0 2 = 1 / (25 * π) := by
    rw [stepJA, predictState_c2ce]
    show (1 : ℝ) / (50 * π) * (Real.cos (50 * π * (1 / 50) + -π) - Real.cos (-π)) =
      1 / (25 * π)
    rw [show 50 * π * (1 / 50) + -π = 0 by ring]
    simp [Real.cos_pi]
    ring
  have hclaim : specJA ![0, 0, 0, 1, 50 * π] (1 / 50) 0 2 = -(1 / (25 * π)) := by
    show (1 : ℝ) / (50 * π) * (Real.cos (50 * π * (1 / 50) + 0) - Real.cos 0) =
      -(1 / (25 * π))
    rw [show 50 * π * (1 / 50) + 0 = π by ring]
    simp [Real.cos_pi]
    ring
  rw [hcode, hclaim]
  have h : (0 : ℝ) < 1 / (25 * π) := by positivity
  intro heq
  linarith

/-! ## Claim C5: heading wrap range -/

/-- C5 (amended): the wrap function maps every real input into the half-open
interval `[−π, π)` — an exact odd multiple of `π` is sent to `−π`, not `π` —
and the heading component after every predict step that takes the turning
branch lies in `[−π, π)`; the straight branch applies no wrap and leaves the
heading unchanged. -/
theorem C5_theorem :
    (∀ a : ℝ, wrapAngle a ∈ Set.Ico (-π) π) ∧
      ∀ (x : StateV) (dt om : ℝ), 0.0001 ≤ |om| →
        (predictState x dt om) 2 ∈ Set.Ico (-π) π := by
  refine ⟨wrapAngle_mem_Ico, fun x dt om h => ?_⟩
  rw [predictState, if_neg (not_lt.2 h)]
  simpa using wrapAngle_mem_Ico (x 2 + x 4 * dt)

/-- C5 witness: concrete instantiations of `C5_theorem` at `a = 0` and at a
turning-branch step with measured yaw rate `1`. -/
theorem C5_witness :
    wrapAngle 0 ∈ Set.Ico (-π) π ∧
      ((0.0001 : ℝ) ≤ |(1 : ℝ)| ∧
        (predictState ![0, 0, 0, 0, 0] 1 1) 2 ∈ Set.Ico (-π) π) :=
  ⟨C5_theorem.1 0, by norm_num, C5_theorem.2 ![0, 0, 0, 0, 0] 1 1 (by norm_num)⟩

/-- C5 counterexample: the wrap function sends the odd multiple `π` of `π` to
`−π`, which is outside `(−π, π]`; moreover a straight-branch predict step
leaves a heading of `10` untouched, outside `(−π, π]` as well. -/
theorem C5_counterexample :
    (wrapAngle π = -π ∧ -π ∉ Set.Ioc (-π) π) ∧
      ((predictState ![0, 0, 10, 0, 0] (1 / 50) 0) 2 = 10 ∧
        (10 : ℝ) ∉ Set.Ioc (-π) π) := by
  have hpi : π ≤ 4 := Real.pi_le_four
  refine ⟨⟨wrapAngle_pi, by simp⟩, ?_, ?_⟩
  · norm_num [predictState]
  · simp only [Set.mem_Ioc, not_and]
    intro _
    linarith

/-! ## Claims C3, C7, C10: steps without a position measurement -/

/-- C3: on a step with no position measurement (GPS flag false), the state and
covariance at the end of the step equal their post-predict values exactly. -/
theorem C3_theorem (Q : Matrix (Fin 5) (Fin 5) ℝ) (R : Matrix (Fin 2) (Fin 2) ℝ)
    (x : StateV) (P : Matrix (Fin 5) (Fin 5) ℝ) (dt om : ℝ) (z : Fin 2 → ℝ) :
    (ekfStep Q R x P dt om false z).x = predictState x dt om ∧
      (ekfStep Q R x P dt om false z).P = predictCov Q x P dt om :=
  ⟨ekfStep_false_x Q R x P dt om z, ekfStep_false_P Q R x P dt om z⟩

/-- C7 (amended): on a step with no position measurement the residual is formed
from the externally supplied measurement column, not from `h(x)`, so it is in
general nonzero; but the correction `K·y` the step adds to the state is exactly
the zero vector for every such column, because the gain is exactly zero. -/
theorem C7_theorem (Q : Matrix (Fin 5) (Fin 5) ℝ) (R : Matrix (Fin 2) (Fin 2) ℝ)
    (x : StateV) (P : Matrix (Fin 5) (Fin 5) ℝ) (dt om : ℝ) (z : Fin 2 → ℝ) :
    (stepK Q R x P dt om false).mulVec (stepResidual x dt om z) = 0 := by
  rw [stepK_false]
  simp

/-- C7 counterexample: on a no-measurement step with state `(0,0,0,0,0)` and
measurement column `(1,1)`, the residual the code forms is `(1,1) − h(x') =
(1,1) ≠ 0`, so `z` is not taken as `h(x)` and the residual is not the zero
2-vector. -/
theorem C7_counterexample :
    stepResidual ![0, 0, 0, 0, 0] (1 / 50) 0 ![1, 1] ≠ 0 := by
  intro h
  have h0 := congrFun h 0
  norm_num [stepResidual, hmeas, predictState] at h0

/-- C10: on a step with no position fix the measurement Jacobian is the
all-zero matrix, the Kalman gain is exactly the 5×2 zero matrix, the state
correction `K·y` is exactly zero whatever the residual's value, and
`I − K·JH` is exactly the identity. -/
theorem C10_theorem (Q : Matrix (Fin 5) (Fin 5) ℝ) (R : Matrix (Fin 2) (Fin 2) ℝ)
    (x : StateV) (P : Matrix (Fin 5) (Fin 5) ℝ) (dt om : ℝ) :
    JHmat false = 0 ∧
      stepK Q R x P dt om false = 0 ∧
      (∀ y : Fin 2 → ℝ, (stepK Q R x P dt om false).mulVec y = 0) ∧
      1 - stepK Q R x P dt om false * JHmat false = 1 := by
  refine ⟨rfl, stepK_false Q R x P dt om, fun y => ?_, ?_⟩
  · rw [stepK_false]; simp
  · rw [stepK_false]; simp

/-! ## Claim C8: evolution of the covariance -/

lemma posSemidef_predictCov {Q P : Matrix (Fin 5) (Fin 5) ℝ}
    (hQ : Q.PosSemidef) (hP : P.PosSemidef) (x : StateV) (dt om : ℝ) :
    (predictCov Q x P dt om).PosSemidef := by
  unfold predictCov
  exact (hP.mul_mul_conjTranspose_same (stepJA x dt om)).add hQ

lemma posSemidef_update (P1 : Matrix (Fin 5) (Fin 5) ℝ) (hP1 : P1.PosSemidef)
    (H : Matrix (Fin 2) (Fin 5) ℝ) {R : Matrix (Fin 2) (Fin 2) ℝ}
    (hR : R.PosSemidef) :
    ((1 - P1 * Hᴴ * (H * P1 * Hᴴ + R)⁻¹ * H) * P1).PosSemidef := by
  set S : Matrix (Fin 2) (Fin 2) ℝ := H * P1 * Hᴴ + R with hS
  set K : Matrix (Fin 5) (Fin 2) ℝ := P1 * Hᴴ * S⁻¹ with hK
  by_cases hdet : IsUnit S.det
  · have hKS' : K * (H * (P1 * Hᴴ)) + K * R = P1 * Hᴴ := by
      have h0 : K * S = P1 * Hᴴ := by
        rw [hK, Matrix.mul_assoc, Matrix.nonsing_inv_mul S hdet, Matrix.mul_one]
      rw [hS, Matrix.mul_add] at h0
      simpa only [Matrix.mul_assoc] using h0
    have hd : (1 - K * H) * (P1 * Hᴴ) = K * R := by
      rw [Matrix.sub_mul, Matrix.one_mul]
      simp only [Matrix.mul_assoc]
      exact sub_eq_of_eq_add' hKS'.symm
    have h1 : (1 - K * H)ᴴ = 1 - Hᴴ * Kᴴ := by
      simp [Matrix.conjTranspose_sub, Matrix.conjTranspose_mul]
    have joseph : (1 - K * H) * P1 = (1 - K * H) * P1 * (1 - K * H)ᴴ + K * R * Kᴴ := by
      rw [h1, Matrix.mul_sub, Matrix.mul_one]
      have h2 : (1 - K * H) * P1 * (Hᴴ * Kᴴ) = K * R * Kᴴ := by
        rw [← Matrix.mul_assoc, Matrix.mul_assoc (1 - K * H) P1 Hᴴ, hd]
      rw [h2]
      abel
    rw [show (1 - P1 * Hᴴ * S⁻¹ * H) * P1 = (1 - K * H) * P1 by rw [hK], joseph]
    exact (hP1.mul_mul_conjTranspose_same (1 - K * H)).add
      (hR.mul_mul_conjTranspose_same K)
  · have hinv : S⁻¹ = 0 := Matrix.nonsing_inv_apply_not_isUnit S hdet
    have hK0 : K = 0 := by rw [hK, hinv, Matrix.mul_zero]
    rw [show (1 - P1 * Hᴴ * S⁻¹ * H) * P1 = (1 - K * H) * P1 by rw [hK], hK0]
    simpa using hP1

lemma ekfStep_P_posSemidef {Q : Matrix (Fin 5) (Fin 5) ℝ}
    {R : Matrix (Fin 2) (Fin 2) ℝ} (hQ : Q.PosSemidef) (hR : R.PosSemidef)
    {P : Matrix (Fin 5) (Fin 5) ℝ} (hP : P.PosSemidef) (x : StateV)
    (dt om : ℝ) (gps : Bool) (z : Fin 2 → ℝ) :
    ((ekfStep Q R x P dt om gps z).P).PosSemidef :=
  posSemidef_update (predictCov Q x P dt om)
    (posSemidef_predictCov hQ hP x dt om) (JHmat gps) hR

lemma runEKF_P_posSemidef {Q : Matrix (Fin 5) (Fin 5) ℝ}
    {R : Matrix (Fin 2) (Fin 2) ℝ} (hQ : Q.PosSemidef) (hR : R.PosSemidef) :
    ∀ (L : List StepIn) (x : StateV) (P : Matrix (Fin 5) (Fin 5) ℝ),
      P.PosSemidef → ((runEKF Q R x P L).2).PosSemidef := by
  intro L
  induction L with
  | nil => intro x P hP; exact hP
  | cons s rest ih =>
      intro x P hP
      exact ih _ _ (ekfStep_P_posSemidef hQ hR hP x s.dt s.om s.gps s.z)

lemma posSemidef_transpose_eq {A : Matrix (Fin 5) (Fin 5) ℝ}
    (h : A.PosSemidef) : Aᵀ = A := h.1

lemma posSemidef_diag_nonneg {A : Matrix (Fin 5) (Fin 5) ℝ}
    (h : A.PosSemidef) (i : Fin 5) : 0 ≤ A i i := by
  have := h.2 (Pi.single i 1)
  simpa using this

/-- C8 (amended): for every initial covariance `P` that is positive
semidefinite — which is strictly stronger than symmetric with non-negative
diagonal — and positive-semidefinite `Q` and `R`, the covariance remains
positive semidefinite, hence symmetric with non-negative diagonal, after any
sequence of filter steps (each being `P ← JA·P·JAᵀ + Q` followed by
`P ← (I − K·JH)·P`), in exact arithmetic.  Being merely symmetric with
non-negative diagonal is not preserved. -/
theorem C8_theorem (Q : Matrix (Fin 5) (Fin 5) ℝ) (R : Matrix (Fin 2) (Fin 2) ℝ)
    (hQ : Q.PosSemidef) (hR : R.PosSemidef) (x0 : StateV)
    (P0 : Matrix (Fin 5) (Fin 5) ℝ) (hP0 : P0.PosSemidef) (L : List StepIn) :
    ((runEKF Q R x0 P0 L).2).PosSemidef ∧
      ((runEKF Q R x0 P0 L).2)ᵀ = (runEKF Q R x0 P0 L).2 ∧
      ∀ i, 0 ≤ (runEKF Q R x0 P0 L).2 i i := by
  have h := runEKF_P_posSemidef hQ hR L x0 P0 hP0
  exact ⟨h, posSemidef_transpose_eq h, posSemidef_diag_nonneg h⟩

lemma Qnb_posSemidef : Qnb.PosSemidef := by
  rw [Qnb]
  refine Matrix.posSemidef_diagonal_iff.mpr fun i => ?_
  fin_cases i <;> norm_num [dtnb]

lemma Rnb_posSemidef : Rnb.PosSemidef := by
  have h : Rnb = Matrix.diagonal ![36, 36] := by
    ext i j
    fin_cases i <;> fin_cases j <;> norm_num [Rnb, Matrix.diagonal]
  rw [h]
  refine Matrix.posSemidef_diagonal_iff.mpr fun i => ?_
  fin_cases i <;> norm_num

lemma Pinit_posSemidef : Pinit.PosSemidef := by
  rw [Pinit]
  refine Matrix.posSemidef_diagonal_iff.mpr fun i => ?_
  fin_cases i <;> norm_num

/-- C8 witness: concrete instantiation of `C8_theorem` with the notebook's
`Q`, `R` and initial `P`, over two steps (one without and one with a GPS
fix). -/
theorem C8_witness :
    ((runEKF Qnb Rnb ![0, 0, 0, 10, 0.1] Pinit
        [⟨dtnb, 0.1, false, ![0, 0]⟩, ⟨dtnb, 0.1, true, ![1, 1]⟩]).2).PosSemidef ∧
      ((runEKF Qnb Rnb ![0, 0, 0, 10, 0.1] Pinit
        [⟨dtnb, 0.1, false, ![0, 0]⟩, ⟨dtnb, 0.1, true, ![1, 1]⟩]).2)ᵀ =
        (runEKF Qnb Rnb ![0, 0, 0, 10, 0.1] Pinit
        [⟨dtnb, 0.1, false, ![0, 0]⟩, ⟨dtnb, 0.1, true, ![1, 1]⟩]).2 ∧
      0 ≤ (runEKF Qnb Rnb ![0, 0, 0, 10, 0.1] Pinit
        [⟨dtnb, 0.1, false, ![0, 0]⟩, ⟨dtnb, 0.1, true, ![1, 1]⟩]).2 0 0 := by
  have h := C8_theorem Qnb Rnb Qnb_posSemidef Rnb_posSemidef ![0, 0, 0, 10, 0.1]
    Pinit Pinit_posSemidef [⟨dtnb, 0.1, false, ![0, 0]⟩, ⟨dtnb, 0.1, true, ![1, 1]⟩]
  exact ⟨h.1, h.2.1, h.2.2 0⟩

lemma wrapAngle_zero : wrapAngle 0 = 0 := by
  unfold wrapAngle pymod
  rw [zero_add, show π / (2 * π) = 1 / 2 by
    rw [mul_comm, div_mul_eq_div_div, div_self Real.pi_ne_zero]]
  rw [show ⌊(1 : ℝ) / 2⌋ = 0 from Int.floor_eq_zero_iff.mpr (by norm_num)]
  simp

lemma predictState_c8ce :
    predictState s0cex (1 / 50) 1 = ![0, -1, 0, 25 * π, 50 * π] := by
  have hne : ¬ |(1 : ℝ)| < 0.0001 := by norm_num
  have hπ : π ≠ 0 := Real.pi_ne_zero
  rw [show s0cex = ![0, 0, -π, 25 * π, 50 * π] from rfl]
  funext i
  rw [predictState, if_neg hne]
  fin_cases i
  · show (0 : ℝ) + 25 * π / (50 * π) * (Real.sin (50 * π * (1 / 50) + -π) - Real.sin (-π)) = 0
    rw [show 50 * π * (1 / 50) + -π = 0 by ring]
    simp
  · show (0 : ℝ) + 25 * π / (50 * π) * (-Real.cos (50 * π * (1 / 50) + -π) + Real.cos (-π)) = -1
    rw [show 50 * π * (1 / 50) + -π = 0 by ring]
    rw [Real.cos_zero, Real.cos_neg, Real.cos_pi]
    rw [show 25 * π / (50 * π) = 1 / 2 by
      rw [show (50 : ℝ) * π = 25 * π * 2 by ring, div_mul_eq_div_div,
        div_self (by positivity : (25 : ℝ) * π ≠ 0)]]
    norm_num
  · show wrapAngle (-π + 50 * π * (1 / 50)) = 0
    rw [show -π + 50 * π * (1 / 50) = 0 by ring, wrapAngle_zero]
  · rfl
  · rfl

lemma jacobianA_c8ce_02 :
    jacobianA ![0, -1, 0, 25 * π, 50 * π] (1 / 50) 0 2 = -1 := by
  show (25 * π / (50 * π)) * (Real.cos (50 * π * (1 / 50) + 0) - Real.cos 0) = -1
  rw [show 50 * π * (1 / 50) + 0 = π by ring, Real.cos_pi, Real.cos_zero]
  rw [show 25 * π / (50 * π) = 1 / 2 by
    rw [show (50 : ℝ) * π = 25 * π * 2 by ring, div_mul_eq_div_div,
      div_self (by positivity : (25 : ℝ) * π ≠ 0)]]
  norm_num

/-- C8 counterexample: `P0cex` is symmetric with non-negative diagonal, yet a
single predict step (with the notebook's `Q`, `dt = 1/50`, a measured yaw rate
of `1` and no GPS fix) drives its first diagonal entry to `−2 + 0.00176² < 0`,
so symmetry-with-non-negative-diagonal alone is not an invariant of the
update. -/
theorem C8_counterexample :
    P0cexᵀ = P0cex ∧
      0 ≤ P0cex 0 0 ∧ 0 ≤ P0cex 1 1 ∧ 0 ≤ P0cex 2 2 ∧
      0 ≤ P0cex 3 3 ∧ 0 ≤ P0cex 4 4 ∧
      (ekfStep Qnb Rnb s0cex P0cex (1 / 50) 1 false ![0, 0]).P 0 0 < 0 := by
  refine ⟨?_, by norm_num [P0cex], by norm_num [P0cex], by norm_num [P0cex],
    by norm_num [P0cex, Matrix.vecHead, Matrix.vecTail],
    by norm_num [P0cex, Matrix.vecHead, Matrix.vecTail], ?_⟩
  · ext i j
    fin_cases i <;> fin_cases j <;> rfl
  · rw [ekfStep_false_P, predictCov, stepJA, predictState_c8ce, Matrix.add_apply]
    have hmain :
        (jacobianA ![0, -1, 0, 25 * π, 50 * π] (1 / 50) * P0cex *
          (jacobianA ![0, -1, 0, 25 * π, 50 * π] (1 / 50))ᵀ) 0 0 = -2 := by
      simp only [Matrix.mul_apply, Matrix.transpose_apply, Fin.sum_univ_five]
      rw [jacobianA_c8ce_02]
      have h00 : jacobianA ![0, -1, 0, 25 * π, 50 * π] (1 / 50) 0 0 = 1 := rfl
      have h01 : jacobianA ![0, -1, 0, 25 * π, 50 * π] (1 / 50) 0 1 = 0 := rfl
      rw [h00, h01]
      norm_num [P0cex, Matrix.vecHead, Matrix.vecTail]
    rw [hmain]
    have hQ00 : Qnb 0 0 = (0.5 * 8.8 * (1 / 50) ^ 2) ^ 2 := by
      simp [Qnb, dtnb, Matrix.diagonal]
    rw [hQ00]
    norm_num

/-! ## Claim C9: invertibility of the innovation covariance -/

/-- C9 (amended): modelling `np.linalg.inv` failure as non-invertibility, the
inversion of `S = JH·P·JHᵀ + R` fails for singular `R` on steps with no
position measurement (where `S = R` exactly); on measurement steps a
degenerate `R` need not make `S` singular, since `JH·P·JHᵀ` can make up for
it; and for positive-definite `R` and positive-semidefinite propagated
covariance, `S` is positive definite and inversion always succeeds, including
when `JH` is the all-zero matrix. -/
theorem C9_theorem (R : Matrix (Fin 2) (Fin 2) ℝ) (P1 : Matrix (Fin 5) (Fin 5) ℝ)
    (gps : Bool) :
    (gps = false → R.det = 0 → ¬ IsUnit (innovS R P1 gps).det) ∧
      (R.PosDef → P1.PosSemidef → IsUnit (innovS R P1 gps).det) := by
  constructor
  · rintro rfl hdet
    have hS : innovS R P1 false = R := by
      simp [innovS, JHmat_false]
    rw [hS, hdet]
    exact not_isUnit_zero
  · intro hR hP1
    have hpsd : (JHmat gps * P1 * (JHmat gps)ᴴ).PosSemidef :=
      hP1.mul_mul_conjTranspose_same (JHmat gps)
    have hpd : (innovS R P1 gps).PosDef :=
      Matrix.PosDef.posSemidef_add hpsd hR
    exact isUnit_iff_ne_zero.mpr hpd.det_pos.ne'

lemma Rnb_posDef : Rnb.PosDef := by
  have h : Rnb = Matrix.diagonal ![36, 36] := by
    ext i j
    fin_cases i <;> fin_cases j <;> norm_num [Rnb, Matrix.diagonal]
  rw [h]
  refine Matrix.posDef_diagonal_iff.mpr fun i => ?_
  fin_cases i <;> norm_num

/-- C9 witness: concrete instantiations of `C9_theorem`: with `R = 0` and a
no-measurement step the inversion of `S` fails, and with the notebook's
positive-definite `R` it succeeds even on a measurement step with zero
covariance. -/
theorem C9_witness :
    ¬ IsUnit (innovS (0 : Matrix (Fin 2) (Fin 2) ℝ) 0 false).det ∧
      IsUnit (innovS Rnb 0 true).det :=
  ⟨(C9_theorem 0 0 false).1 rfl (by simp),
    (C9_theorem Rnb 0 true).2 Rnb_posDef Matrix.PosSemidef.zero⟩

/-- C9 counterexample: with the degenerate configuration `R = 0`
(zero-variance diagonal) but a GPS step whose propagated covariance is the
notebook's `Q` (obtained from `P = 0`), the innovation covariance the step
inverts is `diag(Q₀₀, Q₀₀)` with `Q₀₀ = 0.00176² > 0`, so its inversion
succeeds: a degenerate `R` does not force the inversion to fail. -/
theorem C9_counterexample :
    (0 : Matrix (Fin 2) (Fin 2) ℝ) 0 0 = 0 ∧ (0 : Matrix (Fin 2) (Fin 2) ℝ) 1 1 = 0 ∧
      IsUnit ((stepS Qnb 0 (fun _ => 0) 0 (1 / 50) 0 true).det) := by
  refine ⟨rfl, rfl, ?_⟩
  have hP1 : predictCov Qnb (fun _ => 0) 0 (1 / 50) 0 = Qnb := by
    rw [predictCov, Matrix.mul_zero, Matrix.zero_mul, zero_add]
  have hS : stepS Qnb 0 (fun _ => 0) 0 (1 / 50) 0 true =
      !![(0.5 * 8.8 * (1 / 50) ^ 2) ^ 2, 0; 0, (0.5 * 8.8 * (1 / 50) ^ 2) ^ 2] := by
    rw [stepS, hP1]
    ext i j
    fin_cases i <;> fin_cases j <;>
      (simp only [innovS, Matrix.add_apply, Matrix.mul_apply, Matrix.transpose_apply,
        Fin.sum_univ_five, Fin.sum_univ_two, Matrix.zero_apply];
       norm_num [JHmat, Qnb, dtnb, Matrix.diagonal])
  rw [hS, Matrix.det_fin_two_of]
  rw [isUnit_iff_ne_zero]
  norm_num

end

end KalmanCTRV
